import Mathlib

/-!
Shallow embedding of the todo application's item store, mutation tools,
persistence layer and command-result extraction, translated from
src/todo_graph.py (authoritative for the tools and the result extraction)
and src/backend.py (whose load_todos / save_todos / get_next_id are
character-for-character the same functions).
-/

namespace TodoApp

/-- An item of the store: the dict built by create_todo_tool
(todo_graph.py lines 50-55) with keys id, text, completed, created_at. -/
structure Item where
  id : Int
  text : String
  completed : Bool
  created_at : String
deriving Repr, DecidableEq

/-- The result dict returned by every tool. `success` is present in every
result the tools build; `message`, `todo`, `todos`, `count` appear only in
some of them (list_todos_tool returns no message key), hence `Option`. -/
structure ToolResult where
  success : Bool
  message : Option String := none
  todo : Option Item := none
  todos : Option (List Item) := none
  count : Option Nat := none
deriving Repr, DecidableEq

/-- Outcome of one tool call: the persisted store after the call, whether
save_todos ran during the call, and the returned result dict. -/
structure ToolStep where
  store : List Item
  saved : Bool
  result : ToolResult
deriving Repr, DecidableEq

/-- Python max over a sequence. The [] case is unreachable from get_next_id,
which guards with `if not todos` (Python max would raise there). -/
def pyMax : List Int → Int
  | [] => 0
  | x :: xs => xs.foldl max x

/-- get_next_id(todos) (todo_graph.py lines 39-43; identical in backend.py
lines 63-67): 1 on an empty list, else `max(todo.get('id', 0) for ...) + 1`.
Every embedded Item carries its id, so the `.get` default 0 never applies. -/
def get_next_id (todos : List Item) : Int :=
  if todos.isEmpty then 1
  else pyMax (todos.map Item.id) + 1

/-- create_todo_tool(text) (todo_graph.py lines 46-58). `created_at` stands
for `datetime.now().isoformat()`, passed explicitly because the clock is
external input. -/
def create_todo_tool (store : List Item) (text : String) (created_at : String) : ToolStep :=
  let new_todo : Item :=
    { id := get_next_id store, text := text, completed := false, created_at := created_at }
  { store := store ++ [new_todo], saved := true,
    result := { success := true, todo := some new_todo,
                message := some ("Created todo: " ++ text) } }

/-- delete_todo_tool(todo_id) (todo_graph.py lines 60-70): find the first
item with the id; if none, report failure without saving; else save the
list filtered to the items whose id differs. -/
def delete_todo_tool (store : List Item) (todo_id : Int) : ToolStep :=
  match store.find? (fun t => decide (t.id = todo_id)) with
  | none =>
    { store := store, saved := false,
      result := { success := false,
                  message := some ("Todo with ID " ++ toString todo_id ++ " not found") } }
  | some todo =>
    { store := store.filter (fun t => decide (t.id ≠ todo_id)), saved := true,
      result := { success := true,
                  message := some ("Deleted todo: " ++ todo.text) } }

/-- In-place mutation `todo['text'] = new_text` of the first item whose id
matches: Python binds `todo` to the first match found by `next(...)` and
edits that one list element. -/
def setTextFirst (todos : List Item) (todo_id : Int) (new_text : String) : List Item :=
  match todos with
  | [] => []
  | t :: ts =>
    if t.id = todo_id then { t with text := new_text } :: ts
    else t :: setTextFirst ts todo_id new_text

/-- In-place mutation `todo['completed'] = True` of the first item whose id
matches. -/
def setCompletedFirst (todos : List Item) (todo_id : Int) : List Item :=
  match todos with
  | [] => []
  | t :: ts =>
    if t.id = todo_id then { t with completed := true } :: ts
    else t :: setCompletedFirst ts todo_id

/-- update_todo_tool(todo_id, new_text) (todo_graph.py lines 72-83). -/
def update_todo_tool (store : List Item) (todo_id : Int) (new_text : String) : ToolStep :=
  match store.find? (fun t => decide (t.id = todo_id)) with
  | none =>
    { store := store, saved := false,
      result := { success := false,
                  message := some ("Todo with ID " ++ toString todo_id ++ " not found") } }
  | some todo =>
    { store := setTextFirst store todo_id new_text, saved := true,
      result := { success := true,
                  message := some ("Updated todo " ++ toString todo_id ++ " from \x27" ++
                    todo.text ++ "\x27 to \x27" ++ new_text ++ "\x27") } }

/-- complete_todo_tool(todo_id) (todo_graph.py lines 85-95). -/
def complete_todo_tool (store : List Item) (todo_id : Int) : ToolStep :=
  match store.find? (fun t => decide (t.id = todo_id)) with
  | none =>
    { store := store, saved := false,
      result := { success := false,
                  message := some ("Todo with ID " ++ toString todo_id ++ " not found") } }
  | some todo =>
    { store := setCompletedFirst store todo_id, saved := true,
      result := { success := true,
                  message := some ("Marked todo as completed: " ++ todo.text) } }

/-- delete_all_todos_tool() (todo_graph.py lines 97-101): saves [] without
reading the store. The parameter records the persisted store before the
call (ignored by the code). -/
def delete_all_todos_tool (_store : List Item) : ToolStep :=
  { store := [], saved := true,
    result := { success := true, message := some "All todos deleted" } }

/-- list_todos_tool() (todo_graph.py lines 103-107): returns the loaded
store and its length; no save, no message key. -/
def list_todos_tool (store : List Item) : ToolStep :=
  { store := store, saved := false,
    result := { success := true, todos := some store, count := some store.length } }

/-- JSON values: what Python json.load produces and json.dump consumes.
The textual file layer is modelled at the value level because the json
module round-trips these value types (ints, strings, booleans, lists,
string-keyed dicts) without loss. -/
inductive Json where
  | null
  | bool (b : Bool)
  | num (n : Int)
  | str (s : String)
  | arr (xs : List Json)
  | obj (fields : List (String × Json))

/-- State of the persisted file todos.json: absent (os.path.exists is
false), present but json.load raises, or present and parsed to value j. -/
inductive FileState where
  | absent
  | unparseable
  | parsed (j : Json)

/-- load_todos() (todo_graph.py lines 24-32; identical in backend.py lines
48-56): the raw parsed value when the file exists and parses, [] when the
file is absent, [] when json.load raises (bare except). -/
def load_todos : FileState → Json
  | .absent => .arr []
  | .unparseable => .arr []
  | .parsed j => j

/-- The JSON object json.dump writes for one item dict. -/
def itemToJson (t : Item) : Json :=
  .obj [("id", .num t.id), ("text", .str t.text),
        ("completed", .bool t.completed), ("created_at", .str t.created_at)]

/-- The JSON array json.dump writes for the whole todos list. -/
def todosToJson (todos : List Item) : Json :=
  .arr (todos.map itemToJson)

/-- save_todos(todos) (todo_graph.py lines 34-37): json.dump of the item
list; the file afterwards parses back to exactly that value. -/
def save_todos (todos : List Item) : FileState :=
  .parsed (todosToJson todos)

/-- Key lookup in a JSON object (Python dict access). -/
def jsonLookup (fields : List (String × Json)) (k : String) : Option Json :=
  (fields.find? (fun p => decide (p.1 = k))).map Prod.snd

/-- Reading one item dict back from its JSON object. -/
def jsonToItem : Json → Option Item
  | .obj fields =>
    match jsonLookup fields "id", jsonLookup fields "text",
          jsonLookup fields "completed", jsonLookup fields "created_at" with
    | some (.num i), some (.str s), some (.bool c), some (.str d) =>
      some { id := i, text := s, completed := c, created_at := d }
    | _, _, _, _ => none
  | _ => none

/-- Reading a list of item dicts back, element by element. -/
def jsonToItems : List Json → Option (List Item)
  | [] => some []
  | j :: js =>
    match jsonToItem j, jsonToItems js with
    | some t, some ts => some (t :: ts)
    | _, _ => none

/-- Reading the whole persisted value back as a list of items. -/
def jsonToTodos : Json → Option (List Item)
  | .arr xs => jsonToItems xs
  | _ => none

/-- Content of a LangChain message as seen by the extraction code in
process_command_with_graph: either a string or a tool-result dict. -/
inductive MsgContent where
  | str (s : String)
  | dict (r : ToolResult)
deriving Repr, DecidableEq

/-- A message of the final conversation state: user message, agent (AI)
message, or a ToolMessage carrying a tool execution result. -/
inductive Msg where
  | user (content : String)
  | ai (content : String)
  | toolMsg (content : MsgContent)
deriving Repr, DecidableEq

/-- `final_message.content`, coerced to a string the way the fallback path
does (`content if isinstance(content, str) else str(content)`); `strOfDict`
stands for Python str() on a dict. -/
def msgContentStr (strOfDict : ToolResult → String) : Msg → String
  | .user s => s
  | .ai s => s
  | .toolMsg (.str s) => s
  | .toolMsg (.dict r) => strOfDict r

/-- The `for msg in reversed(final_state["messages"])` loop of
process_command_with_graph (todo_graph.py lines 232-252), applied to an
already-reversed list: the first ToolMessage with dict content is returned;
string content is fed to json.loads (`parse`: error = exception, ok none =
parsed but not a dict, ok (some r) = parsed dict), where an exception
breaks with success=true wrapping the raw string and a non-dict parse
continues the scan. Returns none when the loop falls through. -/
def findLastToolResult (parse : String → Except Unit (Option ToolResult)) :
    List Msg → Option ToolResult
  | [] => none
  | .toolMsg (.dict r) :: _ => some r
  | .toolMsg (.str s) :: rest =>
    (match parse s with
     | .error _ => some { success := true, message := some s }
     | .ok (some r) => some r
     | .ok none => findLastToolResult parse rest)
  | .user _ :: rest => findLastToolResult parse rest
  | .ai _ :: rest => findLastToolResult parse rest

/-- The result-extraction phase of process_command_with_graph (todo_graph.py
lines 229-263): result starts as the sentinel, the reversed scan may
replace it, and then — the guard is `if not result.get("success")`, not
"if no tool result was found" — any falsy success triggers the fallback
that wraps the last message's content as success=true. All message kinds
have a content attribute, so hasattr always holds; the code indexes
messages[-1], which presupposes a nonempty list (always true since the
initial state contains the user message), and the none branch here is
unreachable in that regime. -/
def extract_result (parse : String → Except Unit (Option ToolResult))
    (strOfDict : ToolResult → String) (messages : List Msg) : ToolResult :=
  let result := (findLastToolResult parse messages.reverse).getD
    { success := false, message := some "No result" }
  if result.success then result
  else
    match messages.getLast? with
    | some m => { success := true, message := some (msgContentStr strOfDict m) }
    | none => result

/-- The store invariant of spec section 3: all ids within a store are
pairwise distinct. -/
def idsUnique (l : List Item) : Prop :=
  (l.map Item.id).Pairwise (fun a b => a ≠ b)

/-! ### Helper lemmas -/

/-- The initial accumulator never exceeds a max-fold over a list. -/
theorem init_le_foldl_max : ∀ (xs : List Int) (x : Int), x ≤ xs.foldl max x
  | [], _ => le_refl _
  | y :: ys, x => le_trans (le_max_left x y) (init_le_foldl_max ys (max x y))

/-- Every list element is bounded by a max-fold over the list. -/
theorem mem_le_foldl_max : ∀ (xs : List Int) (x a : Int), a ∈ xs → a ≤ xs.foldl max x := by
  intro xs
  induction xs with
  | nil => intro x a h; cases h
  | cons y ys ih =>
    intro x a h
    rw [List.foldl_cons]
    rcases List.mem_cons.mp h with rfl | hm
    · exact le_trans (le_max_right x a) (init_le_foldl_max ys (max x a))
    · exact ih (max x y) a hm

/-- pyMax bounds every element of the list. -/
theorem le_pyMax (l : List Int) (a : Int) (h : a ∈ l) : a ≤ pyMax l := by
  cases l with
  | nil => cases h
  | cons x xs =>
    rcases List.mem_cons.mp h with rfl | hm
    · exact init_le_foldl_max xs a
    · exact mem_le_foldl_max xs x a hm

/-- A max-fold yields the accumulator or one of the elements. -/
theorem foldl_max_mem : ∀ (xs : List Int) (x : Int),
    xs.foldl max x = x ∨ xs.foldl max x ∈ xs := by
  intro xs
  induction xs with
  | nil => intro x; exact Or.inl rfl
  | cons y ys ih =>
    intro x
    rw [List.foldl_cons]
    rcases ih (max x y) with h | h
    · rcases max_choice x y with hc | hc
      · exact Or.inl (h.trans hc)
      · exact Or.inr (by rw [h, hc]; exact List.mem_cons_self y ys)
    · exact Or.inr (List.mem_cons_of_mem y h)

/-- On a nonempty list, pyMax is one of the elements. -/
theorem pyMax_mem : ∀ (l : List Int), l ≠ [] → pyMax l ∈ l
  | [], h => absurd rfl h
  | x :: xs, _ => by
    show xs.foldl max x ∈ x :: xs
    rcases foldl_max_mem xs x with h | h
    · rw [h]; exact List.mem_cons_self x xs
    · exact List.mem_cons_of_mem x h

/-- On a nonempty store, get_next_id is the max-fold of the ids plus one. -/
theorem get_next_id_eq_pyMax_add_one (l : List Item) (h : l ≠ []) :
    get_next_id l = pyMax (l.map Item.id) + 1 := by
  cases l with
  | nil => exact absurd rfl h
  | cons a as => simp [get_next_id]

/-- The id assigned at a create strictly exceeds every id in the store. -/
theorem id_lt_get_next_id (store : List Item) (t : Item) (h : t ∈ store) :
    t.id < get_next_id store := by
  cases store with
  | nil => cases h
  | cons a as =>
    have h1 : t.id ≤ pyMax ((a :: as).map Item.id) :=
      le_pyMax _ _ (List.mem_map_of_mem Item.id h)
    have h2 : get_next_id (a :: as) = pyMax ((a :: as).map Item.id) + 1 := by
      simp [get_next_id]
    omega

/-- setTextFirst leaves the sequence of ids unchanged. -/
theorem map_id_setTextFirst (l : List Item) (i : Int) (s : String) :
    (setTextFirst l i s).map Item.id = l.map Item.id := by
  induction l with
  | nil => rfl
  | cons t ts ih =>
    by_cases hti : t.id = i
    · simp [setTextFirst, hti]
    · simp [setTextFirst, hti, ih]

/-- setCompletedFirst leaves the sequence of ids unchanged. -/
theorem map_id_setCompletedFirst (l : List Item) (i : Int) :
    (setCompletedFirst l i).map Item.id = l.map Item.id := by
  induction l with
  | nil => rfl
  | cons t ts ih =>
    by_cases hti : t.id = i
    · simp [setCompletedFirst, hti]
    · simp [setCompletedFirst, hti, ih]

/-- Unfolding of delete_todo_tool on the not-found branch. -/
theorem delete_todo_tool_not_found (store : List Item) (i : Int)
    (hf : store.find? (fun t => decide (t.id = i)) = none) :
    delete_todo_tool store i =
      { store := store, saved := false,
        result := { success := false,
                    message := some ("Todo with ID " ++ toString i ++ " not found") } } := by
  simp [delete_todo_tool, hf]

/-! ### Claim theorems -/

/-- C3: get_next_id returns 1 on the empty list, and on any other list it
returns the maximum of the existing ids plus 1. -/
theorem get_next_id_spec :
    get_next_id [] = 1 ∧
    ∀ (l : List Item) (m : Int), (l.map Item.id).maximum = some m →
      get_next_id l = m + 1 := by
  constructor
  · rfl
  · intro l m hm
    have hne : l ≠ [] := by
      intro h
      subst h
      simp [List.maximum] at hm
    have hmapne : l.map Item.id ≠ [] := by
      simpa using hne
    have hmem : m ∈ l.map Item.id := List.maximum_mem hm
    have h1 : pyMax (l.map Item.id) ≤ m :=
      List.le_maximum_of_mem (pyMax_mem _ hmapne) hm
    have h2 : m ≤ pyMax (l.map Item.id) := le_pyMax _ _ hmem
    have h3 : pyMax (l.map Item.id) = m := le_antisymm h1 h2
    rw [get_next_id_eq_pyMax_add_one l hne, h3]

/-- C3 witness: on the store with ids 2 and 5, the maximum is 5 and
get_next_id returns 6. -/
theorem get_next_id_spec_witness :
    (([⟨2, "a", false, "t"⟩, ⟨5, "b", false, "u"⟩] : List Item).map Item.id).maximum = some 5 ∧
    get_next_id [⟨2, "a", false, "t"⟩, ⟨5, "b", false, "u"⟩] = 5 + 1 :=
  ⟨by decide, get_next_id_spec.2 [⟨2, "a", false, "t"⟩, ⟨5, "b", false, "u"⟩] 5 (by decide)⟩

/-- C8: load_todos returns the full parsed value when the file exists and
parses, and the empty sequence (with no error surfaced: the function is
total) when the file is absent or json.load raises. -/
theorem load_todos_spec :
    load_todos FileState.absent = Json.arr [] ∧
    load_todos FileState.unparseable = Json.arr [] ∧
    ∀ j : Json, load_todos (FileState.parsed j) = j :=
  ⟨rfl, rfl, fun _ => rfl⟩

/-- C6: for every prior store state, delete_all_todos_tool followed by
list_todos_tool yields a result with an empty todos sequence, count 0,
and success. -/
theorem delete_all_then_list (store : List Item) :
    (list_todos_tool (delete_all_todos_tool store).store).result.todos = some [] ∧
    (list_todos_tool (delete_all_todos_tool store).store).result.count = some 0 ∧
    (list_todos_tool (delete_all_todos_tool store).store).result.success = true := by
  refine ⟨rfl, rfl, rfl⟩

/-- C2 counterexample: starting from the empty store, create assigns id 1;
after deleting id 1, the next create assigns id 1 again — the same id is
assigned twice in one session, refuting "never repeats even across
deletes". -/
theorem next_id_reuse_counterexample :
    (create_todo_tool [] "a" "t1").result.todo.map Item.id = some 1 ∧
    (delete_todo_tool (create_todo_tool [] "a" "t1").store 1).store = [] ∧
    (create_todo_tool (delete_todo_tool (create_todo_tool [] "a" "t1").store 1).store
      "b" "t2").result.todo.map Item.id = some 1 := by
  decide

/-- C2 (amended): the id assigned at each create is strictly greater than
every id currently in the store, and a create strictly increases the id the
next create will assign; hence across any sequence of creates with no
interleaved deletes the assigned ids strictly increase and never repeat. -/
theorem create_ids_strictly_increase (store : List Item) (text d : String) :
    (∀ t ∈ store, t.id < get_next_id store) ∧
    get_next_id store < get_next_id (create_todo_tool store text d).store := by
  constructor
  · exact fun t ht => id_lt_get_next_id store t ht
  · have hst : (create_todo_tool store text d).store =
        store ++ [{ id := get_next_id store, text := text, completed := false,
                    created_at := d }] := rfl
    have hne : (create_todo_tool store text d).store ≠ [] := by
      rw [hst]
      exact List.append_ne_nil_of_right_ne_nil store (by simp)
    have hmem : get_next_id store ∈ ((create_todo_tool store text d).store).map Item.id := by
      rw [hst]
      simp
    have h1 : get_next_id store ≤ pyMax (((create_todo_tool store text d).store).map Item.id) :=
      le_pyMax _ _ hmem
    rw [get_next_id_eq_pyMax_add_one _ hne]
    omega

/-- C2 amended witness: on the one-item store with id 1, the item's id is
below get_next_id, and a create raises get_next_id. -/
theorem create_ids_strictly_increase_witness :
    ((⟨1, "a", false, "t"⟩ : Item) ∈ ([⟨1, "a", false, "t"⟩] : List Item)) ∧
    (⟨1, "a", false, "t"⟩ : Item).id < get_next_id [⟨1, "a", false, "t"⟩] ∧
    get_next_id [⟨1, "a", false, "t"⟩] <
      get_next_id (create_todo_tool [⟨1, "a", false, "t"⟩] "b" "u").store :=
  ⟨List.mem_cons_self _ _,
   (create_ids_strictly_increase [⟨1, "a", false, "t"⟩] "b" "u").1 _ (List.mem_cons_self _ _),
   (create_ids_strictly_increase [⟨1, "a", false, "t"⟩] "b" "u").2⟩

/-- C4: update and complete on an id absent from the store return
success=false, run no save, and leave the persisted store unchanged. -/
theorem update_complete_not_found (store : List Item) (i : Int) (s : String)
    (h : ∀ t ∈ store, t.id ≠ i) :
    (update_todo_tool store i s).store = store ∧
    (update_todo_tool store i s).saved = false ∧
    (update_todo_tool store i s).result.success = false ∧
    (complete_todo_tool store i).store = store ∧
    (complete_todo_tool store i).saved = false ∧
    (complete_todo_tool store i).result.success = false := by
  have hf : store.find? (fun t => decide (t.id = i)) = none :=
    List.find?_eq_none.mpr (fun t ht => by simpa using h t ht)
  refine ⟨?_, ?_, ?_, ?_, ?_, ?_⟩ <;> simp [update_todo_tool, complete_todo_tool, hf]

/-- C4 witness: id 99 is absent from the one-item store with id 1; both
tools fail, save nothing, and leave the store as it was. -/
theorem update_complete_not_found_witness :
    (∀ t ∈ ([⟨1, "milk", false, "t"⟩] : List Item), t.id ≠ 99) ∧
    ((update_todo_tool [⟨1, "milk", false, "t"⟩] 99 "x").store = [⟨1, "milk", false, "t"⟩] ∧
     (update_todo_tool [⟨1, "milk", false, "t"⟩] 99 "x").saved = false ∧
     (update_todo_tool [⟨1, "milk", false, "t"⟩] 99 "x").result.success = false ∧
     (complete_todo_tool [⟨1, "milk", false, "t"⟩] 99).store = [⟨1, "milk", false, "t"⟩] ∧
     (complete_todo_tool [⟨1, "milk", false, "t"⟩] 99).saved = false ∧
     (complete_todo_tool [⟨1, "milk", false, "t"⟩] 99).result.success = false) :=
  ⟨by decide, update_complete_not_found [⟨1, "milk", false, "t"⟩] 99 "x" (by decide)⟩

/-- C5: on a store containing an item with the given id, delete followed by
delete of the same id returns success=false the second time (the first
delete removed every item with that id). -/
theorem delete_twice_fails (store : List Item) (i : Int)
    (h : ∃ t ∈ store, t.id = i) :
    (delete_todo_tool (delete_todo_tool store i).store i).result.success = false := by
  obtain ⟨t0, ht0, hid⟩ := h
  cases hf : store.find? (fun t => decide (t.id = i)) with
  | none =>
    exfalso
    have hnone := List.find?_eq_none.mp hf t0 ht0
    simp [hid] at hnone
  | some todo =>
    have hstore : (delete_todo_tool store i).store =
        store.filter (fun t => decide (t.id ≠ i)) := by
      simp [delete_todo_tool, hf]
    have hall : ∀ t ∈ (delete_todo_tool store i).store, t.id ≠ i := by
      rw [hstore]
      intro x hx
      have hne := (List.mem_filter.mp hx).2
      simpa using hne
    have hf2 : ((delete_todo_tool store i).store).find? (fun t => decide (t.id = i)) = none :=
      List.find?_eq_none.mpr (fun t ht => by simpa using hall t ht)
    rw [delete_todo_tool_not_found _ _ hf2]

/-- C5 witness: deleting id 1 twice from the one-item store with id 1 fails
the second time. -/
theorem delete_twice_fails_witness :
    (∃ t ∈ ([⟨1, "milk", false, "t"⟩] : List Item), t.id = 1) ∧
    (delete_todo_tool (delete_todo_tool [⟨1, "milk", false, "t"⟩] 1).store 1).result.success
      = false :=
  ⟨⟨⟨1, "milk", false, "t"⟩, List.mem_cons_self _ _, rfl⟩,
   delete_twice_fails [⟨1, "milk", false, "t"⟩] 1
     ⟨⟨1, "milk", false, "t"⟩, List.mem_cons_self _ _, rfl⟩⟩

/-- Decoding an encoded item dict recovers the item exactly. -/
theorem jsonToItem_itemToJson (t : Item) : jsonToItem (itemToJson t) = some t := rfl

/-- Decoding an encoded item list recovers the list exactly. -/
theorem jsonToItems_map_itemToJson (l : List Item) :
    jsonToItems (l.map itemToJson) = some l := by
  induction l with
  | nil => rfl
  | cons t ts ih => simp [jsonToItems, jsonToItem_itemToJson, ih]

/-- C7: for a persisted file that load_todos can read as items, saving those
items writes exactly their serialization and a subsequent load reads back
the same sequence — serialization is lossless for the id, text, completed
and created_at fields. -/
theorem save_load_roundtrip (fs : FileState) (items : List Item)
    (_h : jsonToTodos (load_todos fs) = some items) :
    load_todos (save_todos items) = todosToJson items ∧
    jsonToTodos (load_todos (save_todos items)) = some items := by
  refine ⟨rfl, ?_⟩
  show jsonToTodos (todosToJson items) = some items
  simp [jsonToTodos, todosToJson, jsonToItems_map_itemToJson]

/-- C7 witness: a file holding the serialized one-item store reads back as
that item, and save-then-load returns it unchanged. -/
theorem save_load_roundtrip_witness :
    jsonToTodos (load_todos (FileState.parsed (todosToJson [⟨1, "milk", false, "t"⟩]))) =
      some [⟨1, "milk", false, "t"⟩] ∧
    (load_todos (save_todos [⟨1, "milk", false, "t"⟩]) = todosToJson [⟨1, "milk", false, "t"⟩] ∧
     jsonToTodos (load_todos (save_todos [⟨1, "milk", false, "t"⟩])) =
       some [⟨1, "milk", false, "t"⟩]) :=
  ⟨rfl, save_load_roundtrip (FileState.parsed (todosToJson [⟨1, "milk", false, "t"⟩]))
    [⟨1, "milk", false, "t"⟩] rfl⟩

/-- C9: every mutation tool preserves pairwise distinctness of the ids in
the persisted store. -/
theorem tools_preserve_idsUnique (store : List Item) (text d s : String) (i : Int)
    (h : idsUnique store) :
    idsUnique (create_todo_tool store text d).store ∧
    idsUnique (delete_todo_tool store i).store ∧
    idsUnique (update_todo_tool store i s).store ∧
    idsUnique (complete_todo_tool store i).store ∧
    idsUnique (delete_all_todos_tool store).store ∧
    idsUnique (list_todos_tool store).store := by
  refine ⟨?_, ?_, ?_, ?_, ?_, ?_⟩
  · have hst : (create_todo_tool store text d).store =
        store ++ [{ id := get_next_id store, text := text, completed := false,
                    created_at := d }] := rfl
    unfold idsUnique
    rw [hst, List.map_append, List.pairwise_append]
    refine ⟨h, by simp, ?_⟩
    intro a ha b hb
    simp only [List.map_cons, List.map_nil, List.mem_singleton] at hb
    obtain ⟨t, ht, rfl⟩ := List.mem_map.mp ha
    rw [hb]
    exact ne_of_lt (id_lt_get_next_id store t ht)
  · cases hf : store.find? (fun t => decide (t.id = i)) with
    | none =>
      have hst : (delete_todo_tool store i).store = store := by
        simp [delete_todo_tool, hf]
      rw [hst]; exact h
    | some todo =>
      have hst : (delete_todo_tool store i).store =
          store.filter (fun t => decide (t.id ≠ i)) := by
        simp [delete_todo_tool, hf]
      unfold idsUnique
      rw [hst]
      exact List.Pairwise.sublist (List.Sublist.map Item.id (List.filter_sublist store)) h
  · cases hf : store.find? (fun t => decide (t.id = i)) with
    | none =>
      have hst : (update_todo_tool store i s).store = store := by
        simp [update_todo_tool, hf]
      rw [hst]; exact h
    | some todo =>
      have hst : (update_todo_tool store i s).store = setTextFirst store i s := by
        simp [update_todo_tool, hf]
      unfold idsUnique
      rw [hst, map_id_setTextFirst]
      exact h
  · cases hf : store.find? (fun t => decide (t.id = i)) with
    | none =>
      have hst : (complete_todo_tool store i).store = store := by
        simp [complete_todo_tool, hf]
      rw [hst]; exact h
    | some todo =>
      have hst : (complete_todo_tool store i).store = setCompletedFirst store i := by
        simp [complete_todo_tool, hf]
      unfold idsUnique
      rw [hst, map_id_setCompletedFirst]
      exact h
  · unfold idsUnique
    simp [delete_all_todos_tool]
  · exact h

/-- C9 witness: on the two-item store with ids 1 and 2, every tool keeps
the ids pairwise distinct. -/
theorem tools_preserve_idsUnique_witness :
    idsUnique [⟨1, "a", false, "t"⟩, ⟨2, "b", false, "u"⟩] ∧
    (idsUnique (create_todo_tool [⟨1, "a", false, "t"⟩, ⟨2, "b", false, "u"⟩] "c" "v").store ∧
     idsUnique (delete_todo_tool [⟨1, "a", false, "t"⟩, ⟨2, "b", false, "u"⟩] 1).store ∧
     idsUnique (update_todo_tool [⟨1, "a", false, "t"⟩, ⟨2, "b", false, "u"⟩] 1 "w").store ∧
     idsUnique (complete_todo_tool [⟨1, "a", false, "t"⟩, ⟨2, "b", false, "u"⟩] 1).store ∧
     idsUnique (delete_all_todos_tool [⟨1, "a", false, "t"⟩, ⟨2, "b", false, "u"⟩]).store ∧
     idsUnique (list_todos_tool [⟨1, "a", false, "t"⟩, ⟨2, "b", false, "u"⟩]).store) :=
  ⟨by unfold idsUnique; decide,
   tools_preserve_idsUnique [⟨1, "a", false, "t"⟩, ⟨2, "b", false, "u"⟩] "c" "v" "w" 1
     (by unfold idsUnique; decide)⟩

/-- The first item whose id matches splits the list; setTextFirst rewrites
exactly its text and find? returns exactly it. -/
theorem find_setTextFirst_decomp (l : List Item) (i : Int) (s : String)
    (h : ∃ t ∈ l, t.id = i) :
    ∃ pre todo post, l = pre ++ todo :: post ∧ todo.id = i ∧
      (∀ u ∈ pre, u.id ≠ i) ∧
      l.find? (fun t => decide (t.id = i)) = some todo ∧
      setTextFirst l i s = pre ++ ({ todo with text := s }) :: post := by
  induction l with
  | nil => simp at h
  | cons a as ih =>
    by_cases hai : a.id = i
    · refine ⟨[], a, as, rfl, hai, by simp, ?_, ?_⟩
      · exact List.find?_cons_of_pos _ (by simp [hai])
      · simp [setTextFirst, hai]
    · have h' : ∃ t ∈ as, t.id = i := by
        obtain ⟨t, ht, hti⟩ := h
        rcases List.mem_cons.mp ht with rfl | hmem
        · exact absurd hti hai
        · exact ⟨t, hmem, hti⟩
      obtain ⟨pre, todo, post, hl, hid, hpre, hfind, hset⟩ := ih h'
      refine ⟨a :: pre, todo, post, ?_, hid, ?_, ?_, ?_⟩
      · rw [hl]; rfl
      · intro u hu
        rcases List.mem_cons.mp hu with rfl | hm
        · exact hai
        · exact hpre u hm
      · rw [List.find?_cons_of_neg _ (by simp [hai])]
        exact hfind
      · simp [setTextFirst, hai, hset]

/-- C10: on a store containing the id, update_todo_tool rewrites exactly
the text of the first matching item — its id, completed and created_at
fields are unchanged — and every other item and the order of items are
unchanged (the store splits as pre ++ item :: post and only the item in the
middle changes, to the same record with new text). -/
theorem update_frame (store : List Item) (i : Int) (s : String)
    (h : ∃ t ∈ store, t.id = i) :
    ∃ pre todo post,
      store = pre ++ todo :: post ∧ todo.id = i ∧ (∀ u ∈ pre, u.id ≠ i) ∧
      (update_todo_tool store i s).store = pre ++ ({ todo with text := s }) :: post ∧
      ({ todo with text := s } : Item).id = todo.id ∧
      ({ todo with text := s } : Item).completed = todo.completed ∧
      ({ todo with text := s } : Item).created_at = todo.created_at ∧
      ({ todo with text := s } : Item).text = s ∧
      (update_todo_tool store i s).result.success = true := by
  obtain ⟨pre, todo, post, hl, hid, hpre, hfind, hset⟩ := find_setTextFirst_decomp store i s h
  refine ⟨pre, todo, post, hl, hid, hpre, ?_, rfl, rfl, rfl, rfl, ?_⟩
  · rw [← hset]
    simp [update_todo_tool, hfind]
  · simp [update_todo_tool, hfind]

/-- C10 witness: updating id 1 in the one-item store rewrites only that
item's text. -/
theorem update_frame_witness :
    (∃ t ∈ ([⟨1, "milk", false, "t"⟩] : List Item), t.id = 1) ∧
    (∃ pre todo post,
      ([⟨1, "milk", false, "t"⟩] : List Item) = pre ++ todo :: post ∧ todo.id = 1 ∧
      (∀ u ∈ pre, u.id ≠ 1) ∧
      (update_todo_tool [⟨1, "milk", false, "t"⟩] 1 "bread").store =
        pre ++ ({ todo with text := "bread" }) :: post ∧
      ({ todo with text := "bread" } : Item).id = todo.id ∧
      ({ todo with text := "bread" } : Item).completed = todo.completed ∧
      ({ todo with text := "bread" } : Item).created_at = todo.created_at ∧
      ({ todo with text := "bread" } : Item).text = "bread" ∧
      (update_todo_tool [⟨1, "milk", false, "t"⟩] 1 "bread").result.success = true) :=
  ⟨⟨⟨1, "milk", false, "t"⟩, List.mem_cons_self _ _, rfl⟩,
   update_frame [⟨1, "milk", false, "t"⟩] 1 "bread"
     ⟨⟨1, "milk", false, "t"⟩, List.mem_cons_self _ _, rfl⟩⟩

/-- C1: at a turn whose most recent tool result is the failed delete of id
99, the extraction of process_command_with_graph does NOT return that
result unchanged: the fallback guard is `if not result.get("success")`,
which also fires when a tool result was found but failed, so the failed
result is replaced by success=true wrapping the agent's final free text.
The claim holds only for successful tool results. -/
theorem extract_result_overrides_failed_tool :
    extract_result (fun _ => Except.ok none) (fun _ => "")
      [Msg.user "Delete todo 99", Msg.ai "",
       Msg.toolMsg (MsgContent.dict
         { success := false, message := some "Todo with ID 99 not found" }),
       Msg.ai "No todo with ID 99 exists."]
      = { success := true, message := some "No todo with ID 99 exists." } ∧
    ({ success := true, message := some "No todo with ID 99 exists." } : ToolResult) ≠
      { success := false, message := some "Todo with ID 99 not found" } := by
  constructor
  · rfl
  · decide

end TodoApp
